import Mathlib

/-!
Verification of the end-to-end envelope-encryption and signing protocol of
the `api-data-mirror` repository (a zero-trust file-sharing client).

Byte buffers (`ArrayBuffer` / `Uint8Array` in the source) are embedded as
`List Nat` with every element below 256.  Pure utility functions from
`src/lib/crypto.ts` are translated directly; the WebCrypto platform
primitives (AES-GCM, RSA-OAEP, RSA-PSS, `JSON.parse`), which are not part
of the repository, are modelled from the specification's contracts, and
each such model says so in its doc comment.  The send and receive
orchestration (`SendFile.tsx` / `ReceiveFiles.tsx`) is embedded as explicit
sequential functions that also record which cryptographic collaborators
they invoke, so that ordering properties are provable.
-/

/-! ## Base64 (`btoa` / `atob` composed with the byte-string conversions)

`arrayBufferToBase64` builds a latin-1 binary string from the bytes with
`String.fromCharCode` and applies `btoa`; `base64ToArrayBuffer` applies
`atob` and reads the bytes back with `charCodeAt`.  Since the char-code
conversions are the identity on values below 256, the composition is
standard base64 over the byte list, embedded here directly.  `atob` throws
on invalid input, so the decoder returns an `Option`. -/

/-- The base64 alphabet used by `btoa`/`atob`. -/
def b64Chars : List Char :=
  "ABCDEFGHIJKLMNOPQRSTUVWXYZabcdefghijklmnopqrstuvwxyz0123456789+/".toList

/-- Character for a 6-bit group. -/
def b64Idx (n : Nat) : Char := b64Chars.getD n 'A'

/-- Index of a character in the alphabet, `none` if absent. -/
def b64Lookup (c : Char) : List Char → Option Nat
  | [] => none
  | x :: xs => if x = c then some 0 else (b64Lookup c xs).map (· + 1)

/-- 6-bit value of a base64 character (`none` = `atob` would throw). -/
def b64Val (c : Char) : Option Nat := b64Lookup c b64Chars

/-- `btoa` on a byte list (the binary string's char codes): three bytes
become four alphabet characters, with `=` padding for a short final
group. -/
def encB : List Nat → List Char
  | [] => []
  | [a] => [b64Idx (a / 4), b64Idx (a % 4 * 16), '=', '=']
  | [a, b] => [b64Idx (a / 4), b64Idx (a % 4 * 16 + b / 16), b64Idx (b % 16 * 4), '=']
  | a :: b :: c :: rest =>
      b64Idx (a / 4) :: b64Idx (a % 4 * 16 + b / 16) ::
      b64Idx (b % 16 * 4 + c / 64) :: b64Idx (c % 64) :: encB rest

/-- Decode four alphabet characters into three bytes. -/
def dec4 (c1 c2 c3 c4 : Char) : Option (List Nat) := do
  let x ← b64Val c1
  let y ← b64Val c2
  let z ← b64Val c3
  let w ← b64Val c4
  pure [x * 4 + y / 16, y % 16 * 16 + z / 4, z % 4 * 64 + w]

/-- Decode a final base64 group of at most four characters, honouring `=`
padding exactly as `atob` does. -/
def decFinal : List Char → Option (List Nat)
  | [] => some []
  | [c1, c2] => do
      let x ← b64Val c1
      let y ← b64Val c2
      pure [x * 4 + y / 16]
  | [c1, c2, c3] => do
      let x ← b64Val c1
      let y ← b64Val c2
      let z ← b64Val c3
      pure [x * 4 + y / 16, y % 16 * 16 + z / 4]
  | [c1, c2, c3, c4] =>
      if c3 = '=' then
        if c4 = '=' then do
          let x ← b64Val c1
          let y ← b64Val c2
          pure [x * 4 + y / 16]
        else none
      else if c4 = '=' then do
        let x ← b64Val c1
        let y ← b64Val c2
        let z ← b64Val c3
        pure [x * 4 + y / 16, y % 16 * 16 + z / 4]
      else dec4 c1 c2 c3 c4
  | _ => none

/-- `atob` on a character list, grouped four at a time. -/
def decB : List Char → Option (List Nat)
  | c1 :: c2 :: c3 :: c4 :: c5 :: rest => do
      let b ← dec4 c1 c2 c3 c4
      let r ← decB (c5 :: rest)
      pure (b ++ r)
  | l => decFinal l

/-- `arrayBufferToBase64` from `src/lib/crypto.ts`. -/
def arrayBufferToBase64 (buffer : List Nat) : String := ⟨encB buffer⟩

/-- `base64ToArrayBuffer` from `src/lib/crypto.ts`; `none` models the
`InvalidCharacterError` that `atob` throws on malformed input. -/
def base64ToArrayBuffer (base64 : String) : Option (List Nat) := decB base64.data

/-! ## Buffer concatenation and the signed digest input -/

/-- `concatenateBuffers` from `src/lib/crypto.ts`: copies the buffers into
one buffer, in argument order. -/
def concatenateBuffers (buffers : List (List Nat)) : List Nat := buffers.flatten

/-- `hashData` computes SHA-256 over its exact input bytes.  The digest
function itself is a platform primitive; properties proved here only use
that it is a function of the input bytes, so it stays abstract and is
passed as a parameter where needed. -/
def sendDigestInput (ciphertext nonce authTag : List Nat) : List Nat :=
  concatenateBuffers [ciphertext, nonce, authTag]

/-! ## Local key storage (`src/lib/keyStorage.ts`) -/

/-- The four stored key strings (`StoredKeys` in `keyStorage.ts`). -/
structure StoredKeys where
  encryptionPublicKey : String
  encryptionPrivateKey : String
  signingPublicKey : String
  signingPrivateKey : String
deriving DecidableEq

/-- The IndexedDB object store: each of the four entries is either absent
(`get` yields `undefined`) or holds a string. -/
structure KeyStoreState where
  encryptionPublicKey : Option String
  encryptionPrivateKey : Option String
  signingPublicKey : Option String
  signingPrivateKey : Option String
deriving DecidableEq

/-- `storeKeys`: puts all four entries. -/
def storeKeys (keys : StoredKeys) : KeyStoreState :=
  ⟨some keys.encryptionPublicKey, some keys.encryptionPrivateKey,
   some keys.signingPublicKey, some keys.signingPrivateKey⟩

/-- `getKeys` from `keyStorage.ts`: resolves the stored record when
`encPubRequest.result && encPrivRequest.result && sigPubRequest.result &&
sigPrivRequest.result` is truthy, and `null` otherwise.  JavaScript
truthiness on a `get` result means: not `undefined` and not the empty
string. -/
def getKeys (st : KeyStoreState) : Option StoredKeys :=
  match st.encryptionPublicKey, st.encryptionPrivateKey,
        st.signingPublicKey, st.signingPrivateKey with
  | some a, some b, some c, some d =>
      if a ≠ "" ∧ b ≠ "" ∧ c ≠ "" ∧ d ≠ "" then some ⟨a, b, c, d⟩ else none
  | _, _, _, _ => none

/-- `hasKeys` from `keyStorage.ts`: `getKeys` is non-null. -/
def hasKeys (st : KeyStoreState) : Bool := (getKeys st).isSome

/-! ## KeyBundle strings and parse-or-fallback decoding

`JSON.parse` is a platform primitive, so the decoding is parameterized by
an arbitrary parser outcome `p : String → Option JsValue`; `none` models a
thrown `SyntaxError`.  Property access `parsed.field` on the parse result
throws only when the result is `null` (which `JSON.parse` can return);
on any other non-object value it yields `undefined`. -/

/-- Shape of a `JSON.parse` result as far as the key-bundle code observes
it: `null`, an object with string fields, or any other value (on which
`.encryption` / `.signing` access yields `undefined`). -/
inductive JsValue where
  | null
  | obj (fields : List (String × String))
  | other
deriving DecidableEq

/-- JavaScript property lookup on a parsed object; `none` = `undefined`. -/
def jsField (fields : List (String × String)) (name : String) : Option String :=
  match fields with
  | [] => none
  | (k, v) :: rest => if k = name then some v else jsField rest name

/-- The `try { parsed = JSON.parse(...); key = parsed.encryption } catch
{ key = whole string }` block of `SendFile.tsx` (`handleSend`).  `none`
means the bound variable is `undefined` (no exception was thrown). -/
def sendParseReceiverKey (p : String → Option JsValue) (publicKey : String) :
    Option String :=
  match p publicKey with
  | none => some publicKey
  | some .null => some publicKey
  | some (.obj fields) => jsField fields "encryption"
  | some .other => none

/-- The matching block of `ReceiveFiles.tsx` (`handleDownload`), which
extracts `parsed.signing` and falls back to the whole string. -/
def recvParseSenderKey (p : String → Option JsValue) (senderPublicKey : String) :
    Option String :=
  match p senderPublicKey with
  | none => some senderPublicKey
  | some .null => some senderPublicKey
  | some (.obj fields) => jsField fields "signing"
  | some .other => none

/-- The `JSON.stringify({encryption, signing})` serialization built in
`Login.tsx` (`handleCredentialResponse`) when uploading the combined
public key bundle. -/
def keyBundleString (encryption signing : String) : String :=
  "\x7b\"encryption\":\"" ++ encryption ++ "\",\"signing\":\"" ++ signing ++
    "\"\x7d"

/-! ## Errors of the protocol layer -/

/-- Error kinds surfaced by the embedded operations. -/
inductive CryptoError where
  | keyFormat
  | badBase64
  | signatureInvalid
  | keyUnwrap
  | integrity
deriving DecidableEq

/-! ## AES-256-GCM (`encryptFile` / `decryptFile`)

Modelled from the spec: the AES-GCM primitive behind
`window.crypto.subtle.encrypt/decrypt` is not part of the repository.
GCM is counter-mode encryption (a keystream derived from key and nonce,
XORed onto the plaintext) followed by an authentication tag over the
ciphertext, appended as a fixed 16-byte tail; decryption recomputes the
tag, fails with an integrity error when it does not authenticate, and
otherwise XORs the keystream back off.  The keystream and tag derivations
stay abstract (fields of `GCMPrimitive`); only the tag length is fixed. -/

structure GCMPrimitive where
  keystream : List Nat → List Nat → Nat → Nat
  tag : List Nat → List Nat → List Nat → List Nat
  tag_len : ∀ k n c, (tag k n c).length = 16

/-- XOR a positional keystream onto a byte list, starting at index `i`. -/
def xorStream (ks : Nat → Nat) : Nat → List Nat → List Nat
  | _, [] => []
  | i, b :: bs => (b ^^^ ks i) :: xorStream ks (i + 1) bs

/-- `encryptFile` from `src/lib/crypto.ts` over the modelled primitive:
AEAD output is ciphertext with the 16-byte auth tag appended. -/
def encryptFile (g : GCMPrimitive) (file : List Nat) (aesKey nonce : List Nat) :
    List Nat :=
  let ct := xorStream (g.keystream aesKey nonce) 0 file
  ct ++ g.tag aesKey nonce ct

/-- `decryptFile` from `src/lib/crypto.ts` over the modelled primitive:
split the 16-byte tail tag, recompute, and fail when it does not
authenticate. -/
def decryptFile (g : GCMPrimitive) (encryptedData : List Nat)
    (aesKey nonce : List Nat) : Except CryptoError (List Nat) :=
  if 16 ≤ encryptedData.length then
    let ct := encryptedData.take (encryptedData.length - 16)
    let t := encryptedData.drop (encryptedData.length - 16)
    if t = g.tag aesKey nonce ct then
      .ok (xorStream (g.keystream aesKey nonce) 0 ct)
    else .error .integrity
  else .error .integrity

/-- The `handleSend` split of the AEAD output (`SendFile.tsx`): ciphertext
is everything but the last 16 bytes, the auth tag is the 16-byte tail. -/
def sendSplit (encryptedFile : List Nat) : List Nat × List Nat :=
  (encryptedFile.take (encryptedFile.length - 16),
   encryptedFile.drop (encryptedFile.length - 16))

/-! ## RSA-OAEP key wrap (`encryptAESKey` / `decryptAESKey`)

Modelled from the spec: RSA-OAEP is a platform primitive.  Key pairs are
idealized as shared identifiers (a public and a private key match exactly
when they carry the same identifier); OAEP ciphertext binds the recipient,
and unwrapping under any non-matching private key fails. -/

/-- An OAEP-wrapped payload: bound to the recipient's key pair. -/
structure WrappedKey where
  recipient : Nat
  payload : List Nat
deriving DecidableEq

/-- `encryptAESKey` from `src/lib/crypto.ts`: export the raw AES key bytes
and RSA-OAEP-encrypt them under the receiver's public key. -/
def encryptAESKey (aesKey : List Nat) (receiverPublicKey : Nat) : WrappedKey :=
  ⟨receiverPublicKey, aesKey⟩

/-- `decryptAESKey` from `src/lib/crypto.ts`: RSA-OAEP-decrypt and import
the raw bytes; any underlying failure is a key-unwrap error. -/
def decryptAESKey (encryptedAESKey : WrappedKey) (privateKey : Nat) :
    Except CryptoError (List Nat) :=
  if encryptedAESKey.recipient = privateKey then .ok encryptedAESKey.payload
  else .error .keyUnwrap

/-! ## RSA-PSS sign / verify (`signData` / `verifySignature`)

Modelled from the spec: RSA-PSS is a platform primitive.  Signatures are
idealized deterministically as the signing pair's identifier followed by
the signed bytes; `verifySignature` is a total boolean predicate — it
parses whatever bytes it is given and answers `false` on any mismatch
(malformed bytes, wrong key, or different data), never an exception. -/

/-- `signData` over the modelled primitive. -/
def signData (data : List Nat) (privateKey : Nat) : List Nat :=
  privateKey :: data

/-- `verifySignature` over the modelled primitive: a fail-closed boolean
predicate, total on all byte inputs. -/
def verifySignature (signature : List Nat) (data : List Nat)
    (publicKey : Nat) : Bool :=
  match signature with
  | [] => false
  | k :: d => decide (k = publicKey ∧ d = data)

/-! ## Key import under a purpose (`importPublicKey` etc.)

Modelled from the spec: `window.crypto.subtle.importKey` is a platform
primitive.  An exported key encoding carries the algorithm it was
generated for (OAEP for the encryption pair, PSS for the signing pair);
importing under a mismatched purpose fails with a key-format error. -/

/-- Padding scheme a key pair was generated for. -/
inductive Alg where
  | oaep
  | pss
deriving DecidableEq

/-- A portable key encoding (SPKI/PKCS8-equivalent): the encoded bytes
together with the algorithm they were generated for. -/
structure ExportedKey where
  alg : Alg
  body : String
deriving DecidableEq

/-- A generated key pair. -/
structure KeyPairM where
  publicKey : ExportedKey
  privateKey : ExportedKey
deriving DecidableEq

/-- `generateKeyPair` from `src/lib/crypto.ts`: RSA-OAEP pair. -/
def generateKeyPair (seed : Nat) : KeyPairM :=
  ⟨⟨.oaep, "pub" ++ toString seed⟩, ⟨.oaep, "priv" ++ toString seed⟩⟩

/-- `generateSigningKeyPair` from `src/lib/crypto.ts`: RSA-PSS pair. -/
def generateSigningKeyPair (seed : Nat) : KeyPairM :=
  ⟨⟨.pss, "pub" ++ toString seed⟩, ⟨.pss, "priv" ++ toString seed⟩⟩

/-- `exportPublicKey`: SPKI-equivalent portable encoding (keeps the
algorithm identifier, as SPKI does). -/
def exportPublicKey (key : ExportedKey) : ExportedKey := key

/-- `exportPrivateKey`: PKCS8-equivalent portable encoding. -/
def exportPrivateKey (key : ExportedKey) : ExportedKey := key

/-- `importPublicKey` from `src/lib/crypto.ts`: imports for RSA-OAEP
encryption; fails on a key generated for another algorithm. -/
def importPublicKey (key : ExportedKey) : Except CryptoError ExportedKey :=
  if key.alg = .oaep then .ok key else .error .keyFormat

/-- `importPrivateKey` from `src/lib/crypto.ts`: RSA-OAEP decryption. -/
def importPrivateKey (key : ExportedKey) : Except CryptoError ExportedKey :=
  if key.alg = .oaep then .ok key else .error .keyFormat

/-- `importSigningPublicKey` from `src/lib/crypto.ts`: RSA-PSS verify. -/
def importSigningPublicKey (key : ExportedKey) : Except CryptoError ExportedKey :=
  if key.alg = .pss then .ok key else .error .keyFormat

/-- `importSigningPrivateKey` from `src/lib/crypto.ts`: RSA-PSS sign. -/
def importSigningPrivateKey (key : ExportedKey) : Except CryptoError ExportedKey :=
  if key.alg = .pss then .ok key else .error .keyFormat

/-! ## The envelope and the send/receive orchestration -/

/-- `SendFilePayload` from `src/lib/api.ts`: the envelope handed to the
transport.  `file` carries the raw ciphertext bytes (sent as a `Blob`);
the other binary fields are base64 strings. -/
structure SendFilePayload where
  receiverId : String
  encryptedAESKey : String
  nonce : String
  authTag : String
  signature : String
  senderPublicKey : String
  file : List Nat
  fileName : String
deriving DecidableEq

/-- `DownloadedFile` from `src/lib/api.ts`: the envelope as fetched back,
with the encrypted file as raw bytes and the metadata as base64 strings. -/
structure DownloadedFileW where
  encryptedFile : List Nat
  encryptedAESKey : String
  nonce : String
  authTag : String
  signature : String
  senderPublicKey : String
  fileName : String
deriving DecidableEq

/-- A faithful transport: the server stores and returns the envelope
fields unchanged (both download shapes of `api.ts` deliver the same
field values). -/
def wireTransport (p : SendFilePayload) : DownloadedFileW :=
  ⟨p.file, p.encryptedAESKey, p.nonce, p.authTag, p.signature,
   p.senderPublicKey, p.fileName⟩

/-- Envelope assembly at the end of `handleSend` (`SendFile.tsx`): every
binary field is base64-encoded and `senderPublicKey` is set to
`keys.signingPublicKey`. -/
def assembleEnvelope (keys : StoredKeys) (receiverId : String)
    (encryptedAESKey : List Nat) (ciphertext nonce authTag signature : List Nat)
    (fileName : String) : SendFilePayload :=
  { receiverId := receiverId
    encryptedAESKey := arrayBufferToBase64 encryptedAESKey
    nonce := arrayBufferToBase64 nonce
    authTag := arrayBufferToBase64 authTag
    signature := arrayBufferToBase64 signature
    senderPublicKey := keys.signingPublicKey
    file := ciphertext
    fileName := fileName }

/-- The digest input recomputed by `handleDownload` (`ReceiveFiles.tsx`)
from the received bytes: decode nonce and auth tag from base64 and
concatenate ciphertext, nonce, auth tag in that order.  `none` models a
base64 decoding exception. -/
def recvDigestInput (df : DownloadedFileW) : Option (List Nat) :=
  match base64ToArrayBuffer df.nonce, base64ToArrayBuffer df.authTag with
  | some nonce, some authTag =>
      some (concatenateBuffers [df.encryptedFile, nonce, authTag])
  | _, _ => none

/-- Cryptographic collaborator calls the receive operation can make,
recorded in order. -/
inductive COp where
  | verifyOp
  | unwrapOp
  | decryptOp
deriving DecidableEq, BEq

/-- The cryptographic collaborators `handleDownload` consumes, left
abstract so the orchestration's call discipline is provable for every
behaviour of the primitives. -/
structure RecvOracle where
  hash : List Nat → List Nat
  verify : List Nat → List Nat → List Nat → Bool
  unwrap : List Nat → List Nat → Except CryptoError (List Nat)
  decrypt : List Nat → List Nat → List Nat → Except CryptoError (List Nat)

/-- `handleDownload` from `ReceiveFiles.tsx`, step by step in source
order: parse the sender's key bundle, import the signing public key,
decode nonce and auth tag, recompute the digest over
ciphertext ‖ nonce ‖ authTag, decode and verify the signature, and only
on success unwrap the content key and decrypt (ciphertext rejoined with
the tag).  The second component records which collaborators were
invoked. -/
def handleDownload (p : String → Option JsValue) (o : RecvOracle)
    (keys : StoredKeys) (df : DownloadedFileW) :
    Except CryptoError (List Nat) × List COp :=
  match recvParseSenderKey p df.senderPublicKey with
  | none => (.error .keyFormat, [])
  | some senderSigningKey =>
    match base64ToArrayBuffer senderSigningKey with
    | none => (.error .keyFormat, [])
    | some signingPublicKey =>
      match base64ToArrayBuffer df.nonce with
      | none => (.error .badBase64, [])
      | some nonce =>
        match base64ToArrayBuffer df.authTag with
        | none => (.error .badBase64, [])
        | some authTag =>
          let digest := o.hash (concatenateBuffers [df.encryptedFile, nonce, authTag])
          match base64ToArrayBuffer df.signature with
          | none => (.error .badBase64, [])
          | some signature =>
            if o.verify signature digest signingPublicKey then
              match base64ToArrayBuffer df.encryptedAESKey with
              | none => (.error .badBase64, [.verifyOp])
              | some encryptedAESKey =>
                match base64ToArrayBuffer keys.encryptionPrivateKey with
                | none => (.error .keyFormat, [.verifyOp])
                | some privateKey =>
                  match o.unwrap encryptedAESKey privateKey with
                  | .error e => (.error e, [.verifyOp, .unwrapOp])
                  | .ok aesKey =>
                    match o.decrypt (df.encryptedFile ++ authTag) aesKey nonce with
                    | .error e => (.error e, [.verifyOp, .unwrapOp, .decryptOp])
                    | .ok plaintext =>
                        (.ok plaintext, [.verifyOp, .unwrapOp, .decryptOp])
            else (.error .signatureInvalid, [.verifyOp])

/-! ## Helper lemmas -/

theorem b64Val_b64Idx : ∀ n < 64, b64Val (b64Idx n) = some n := by decide

theorem b64Idx_ne_pad : ∀ n < 64, b64Idx n ≠ '=' := by decide

theorem encB_ne_nil (x : Nat) (xs : List Nat) : encB (x :: xs) ≠ [] := by
  match xs with
  | [] => simp [encB]
  | [a] => simp [encB]
  | a :: b :: t => simp [encB]

theorem decB_four (c1 c2 c3 c4 : Char) :
    decB [c1, c2, c3, c4] = decFinal [c1, c2, c3, c4] := rfl

theorem decB_five (c1 c2 c3 c4 c5 : Char) (rest : List Char) :
    decB (c1 :: c2 :: c3 :: c4 :: c5 :: rest) =
      (dec4 c1 c2 c3 c4).bind (fun b =>
        (decB (c5 :: rest)).bind (fun r => some (b ++ r))) := rfl

theorem decB_encB : ∀ l : List Nat, (∀ x ∈ l, x < 256) → decB (encB l) = some l := by
  intro l
  induction l using encB.induct with
  | case1 => intro _; rfl
  | case2 a =>
      intro hl
      have ha : a < 256 := hl a (by simp)
      simp only [encB, decB_four, decFinal, reduceIte,
        b64Val_b64Idx (a / 4) (by omega), b64Val_b64Idx (a % 4 * 16) (by omega),
        Option.pure_def, Option.bind_eq_bind, Option.some_bind, Option.some.injEq, List.cons.injEq,
        and_true]
      omega
  | case3 a b =>
      intro hl
      have ha : a < 256 := hl a (by simp)
      have hb : b < 256 := hl b (by simp)
      simp only [encB, decB_four, decFinal]
      rw [if_neg (b64Idx_ne_pad (b % 16 * 4) (by omega))]
      simp only [reduceIte, b64Val_b64Idx (a / 4) (by omega),
        b64Val_b64Idx (a % 4 * 16 + b / 16) (by omega),
        b64Val_b64Idx (b % 16 * 4) (by omega),
        Option.pure_def, Option.bind_eq_bind, Option.some_bind, Option.some.injEq, List.cons.injEq,
        and_true]
      omega
  | case4 a b c rest ih =>
      intro hl
      have ha : a < 256 := hl a (by simp)
      have hb : b < 256 := hl b (by simp)
      have hc : c < 256 := hl c (by simp)
      have hrest : ∀ x ∈ rest, x < 256 := fun x hx => hl x (by simp [hx])
      have ih' := ih hrest
      cases rest with
      | nil =>
          simp only [encB, decB_four, decFinal]
          rw [if_neg (b64Idx_ne_pad (b % 16 * 4 + c / 64) (by omega)),
              if_neg (b64Idx_ne_pad (c % 64) (by omega))]
          simp only [dec4, b64Val_b64Idx (a / 4) (by omega),
            b64Val_b64Idx (a % 4 * 16 + b / 16) (by omega),
            b64Val_b64Idx (b % 16 * 4 + c / 64) (by omega),
            b64Val_b64Idx (c % 64) (by omega),
            Option.pure_def, Option.bind_eq_bind, Option.some_bind, Option.some.injEq,
            List.cons.injEq, and_true]
          omega
      | cons r rs =>
          obtain ⟨e1, es, he⟩ := List.exists_cons_of_ne_nil (encB_ne_nil r rs)
          have henc : encB (a :: b :: c :: r :: rs) =
              b64Idx (a / 4) :: b64Idx (a % 4 * 16 + b / 16) ::
              b64Idx (b % 16 * 4 + c / 64) :: b64Idx (c % 64) ::
              encB (r :: rs) := rfl
          rw [henc, he, decB_five, ← he, ih']
          simp only [dec4, b64Val_b64Idx (a / 4) (by omega),
            b64Val_b64Idx (a % 4 * 16 + b / 16) (by omega),
            b64Val_b64Idx (b % 16 * 4 + c / 64) (by omega),
            b64Val_b64Idx (c % 64) (by omega),
            Option.pure_def, Option.bind_eq_bind, Option.some_bind, Option.some.injEq,
            List.cons_append, List.nil_append, List.cons.injEq, and_true]
          omega

theorem xorStream_length (ks : Nat → Nat) (i : Nat) (l : List Nat) :
    (xorStream ks i l).length = l.length := by
  induction l generalizing i with
  | nil => rfl
  | cons b bs ih => simp [xorStream, ih]

theorem xorStream_xorStream (ks : Nat → Nat) (i : Nat) (l : List Nat) :
    xorStream ks i (xorStream ks i l) = l := by
  induction l generalizing i with
  | nil => rfl
  | cons b bs ih =>
      simp only [xorStream, ih]
      rw [Nat.xor_assoc, Nat.xor_self, Nat.xor_zero]

/-! ## Claim theorems -/

/-- C1: in every receive operation, signature verification completes and
succeeds strictly before any decryption step: when `verifySignature`
answers false, `handleDownload` never invokes the key-unwrap or decrypt
collaborators (their call count is zero) and produces no plaintext. -/
theorem claim_c1_verify_gates_decryption (p : String → Option JsValue)
    (o : RecvOracle) (keys : StoredKeys) (df : DownloadedFileW)
    (h : ∀ s d k, o.verify s d k = false) :
    (handleDownload p o keys df).2.count COp.unwrapOp = 0 ∧
    (handleDownload p o keys df).2.count COp.decryptOp = 0 ∧
    ∀ pt, (handleDownload p o keys df).1 ≠ Except.ok pt := by
  unfold handleDownload
  simp only [h]
  repeat' split
  all_goals simp_all [List.count_cons, List.count_nil]
  all_goals decide

theorem claim_c1_witness :
    (handleDownload (fun _ => none)
        ⟨fun x => x, fun _ _ _ => false, fun _ _ => Except.error .keyUnwrap,
         fun _ _ _ => Except.error .integrity⟩
        ⟨"e", "d", "s", "t"⟩ ⟨[1], "AA==", "AA==", "AA==", "AA==", "AA==", "f"⟩).2.count
        COp.unwrapOp = 0 ∧
    (handleDownload (fun _ => none)
        ⟨fun x => x, fun _ _ _ => false, fun _ _ => Except.error .keyUnwrap,
         fun _ _ _ => Except.error .integrity⟩
        ⟨"e", "d", "s", "t"⟩ ⟨[1], "AA==", "AA==", "AA==", "AA==", "AA==", "f"⟩).2.count
        COp.decryptOp = 0 ∧
    ∀ pt, (handleDownload (fun _ => none)
        ⟨fun x => x, fun _ _ _ => false, fun _ _ => Except.error .keyUnwrap,
         fun _ _ _ => Except.error .integrity⟩
        ⟨"e", "d", "s", "t"⟩ ⟨[1], "AA==", "AA==", "AA==", "AA==", "AA==", "f"⟩).1 ≠
        Except.ok pt :=
  claim_c1_verify_gates_decryption (fun _ => none)
    ⟨fun x => x, fun _ _ _ => false, fun _ _ => Except.error .keyUnwrap,
     fun _ _ _ => Except.error .integrity⟩
    ⟨"e", "d", "s", "t"⟩ ⟨[1], "AA==", "AA==", "AA==", "AA==", "AA==", "f"⟩
    (fun _ _ _ => rfl)

/-- C2: sender and receiver compute the signed digest over exactly the
same bytes in the same order: the receiver's recomputed digest input over
the received wire fields equals the sender's
`concatenateBuffers(ciphertext, nonce, authTag)`, which is the
concatenation ciphertext ‖ nonce ‖ authTag in that order (so SHA-256 of
the two inputs agrees). -/
theorem claim_c2_digest_agreement (keys : StoredKeys)
    (receiverId fileName : String)
    (wrappedKey ciphertext nonce authTag signature : List Nat)
    (hn : ∀ x ∈ nonce, x < 256) (ht : ∀ x ∈ authTag, x < 256) :
    recvDigestInput (wireTransport (assembleEnvelope keys receiverId wrappedKey
        ciphertext nonce authTag signature fileName)) =
      some (sendDigestInput ciphertext nonce authTag) ∧
    sendDigestInput ciphertext nonce authTag = ciphertext ++ nonce ++ authTag := by
  constructor
  · simp only [recvDigestInput, wireTransport, assembleEnvelope]
    rw [show base64ToArrayBuffer (arrayBufferToBase64 nonce) = some nonce from
          decB_encB nonce hn,
        show base64ToArrayBuffer (arrayBufferToBase64 authTag) = some authTag from
          decB_encB authTag ht]
    rfl
  · simp [sendDigestInput, concatenateBuffers]

theorem claim_c2_witness :
    recvDigestInput (wireTransport (assembleEnvelope ⟨"e", "d", "s", "t"⟩ "r"
        [9] [10, 20] [11] [12] [13] "f")) =
      some (sendDigestInput [10, 20] [11] [12]) ∧
    sendDigestInput [10, 20] [11] [12] = [10, 20] ++ [11] ++ [12] :=
  claim_c2_digest_agreement ⟨"e", "d", "s", "t"⟩ "r" "f" [9] [10, 20] [11] [12]
    [13] (by decide) (by decide)

/-- C3 counterexample: the claim says the envelope's `senderPublicKey`
field carries the sender's full public key bundle (the serialization with
both the encryption and the signing public key).  At this concrete key
store the assembled envelope carries exactly the bare signing public key,
which differs from the bundle serialization. -/
theorem claim_c3_counterexample :
    (assembleEnvelope ⟨"ENCPUB", "ENCPRIV", "SIGPUB", "SIGPRIV"⟩ "r1" [1] [2]
        [3] [4] [5] "f.txt").senderPublicKey = "SIGPUB" ∧
    "SIGPUB" ≠ keyBundleString "ENCPUB" "SIGPUB" := by
  exact ⟨rfl, by decide⟩

/-- C3 amended: the envelope assembled by the send operation carries, in
its `senderPublicKey` field, only the sender's stored signing public key
(a bare exported key string), not the two-key bundle serialization. -/
theorem claim_c3_amended (keys : StoredKeys) (receiverId : String)
    (encryptedAESKey ciphertext nonce authTag signature : List Nat)
    (fileName : String) :
    (assembleEnvelope keys receiverId encryptedAESKey ciphertext nonce authTag
        signature fileName).senderPublicKey = keys.signingPublicKey := rfl

/-- C4: AEAD round trip: for every plaintext (including the empty one),
key and nonce, the encryption output splits into ciphertext and a 16-byte
tail tag whose rejoining is the output itself, and decrypting that output
with the same key and nonce yields the plaintext. -/
theorem claim_c4_gcm_round_trip (g : GCMPrimitive)
    (file aesKey nonce : List Nat) :
    (sendSplit (encryptFile g file aesKey nonce)).1 ++
        (sendSplit (encryptFile g file aesKey nonce)).2 =
      encryptFile g file aesKey nonce ∧
    decryptFile g (encryptFile g file aesKey nonce) aesKey nonce =
      Except.ok file := by
  constructor
  · exact List.take_append_drop _ _
  · have hct : (xorStream (g.keystream aesKey nonce) 0 file).length = file.length :=
      xorStream_length _ _ _
    have htag := g.tag_len aesKey nonce (xorStream (g.keystream aesKey nonce) 0 file)
    simp only [encryptFile, decryptFile]
    have hlen : (xorStream (g.keystream aesKey nonce) 0 file ++
        g.tag aesKey nonce (xorStream (g.keystream aesKey nonce) 0 file)).length =
        file.length + 16 := by
      simp [hct, htag]
    rw [if_pos (by omega)]
    have hsub : (xorStream (g.keystream aesKey nonce) 0 file ++
        g.tag aesKey nonce (xorStream (g.keystream aesKey nonce) 0 file)).length - 16 =
        (xorStream (g.keystream aesKey nonce) 0 file).length := by omega
    rw [hsub, List.take_left, List.drop_left, if_pos rfl, xorStream_xorStream]

/-- C5: key-wrap round trip: unwrapping a wrapped content key under the
matching private key recovers the raw key bytes, and under any
non-matching private key fails with the key-unwrap error instead of
returning a key. -/
theorem claim_c5_keywrap_round_trip (k : List Nat) (pub priv : Nat) :
    decryptAESKey (encryptAESKey k pub) priv =
      if priv = pub then Except.ok k else Except.error CryptoError.keyUnwrap := by
  by_cases h : priv = pub
  · simp [encryptAESKey, decryptAESKey, h]
  · simp [encryptAESKey, decryptAESKey, h, Ne.symm h]

/-- C6: key-bundle parsing never throws: for every parser outcome and
every input string, the send-path and receive-path parse blocks are total;
when JSON parsing fails (or the parse result is `null`, on which property
access would throw) both fall back to the entire string, and on a parsed
object each extracts its key field (`encryption` on the send path,
`signing` on the receive path). -/
theorem claim_c6_parse_fallback (p : String → Option JsValue) (s : String) :
    (p s = none →
      sendParseReceiverKey p s = some s ∧ recvParseSenderKey p s = some s) ∧
    (p s = some JsValue.null →
      sendParseReceiverKey p s = some s ∧ recvParseSenderKey p s = some s) ∧
    (∀ fields, p s = some (JsValue.obj fields) →
      sendParseReceiverKey p s = jsField fields "encryption" ∧
      recvParseSenderKey p s = jsField fields "signing") := by
  refine ⟨fun h => ?_, fun h => ?_, fun fields h => ?_⟩ <;>
    simp [sendParseReceiverKey, recvParseSenderKey, h]

theorem claim_c6_witness :
    sendParseReceiverKey (fun _ => none) "not-json" = some "not-json" ∧
    recvParseSenderKey (fun _ => none) "not-json" = some "not-json" :=
  (claim_c6_parse_fallback (fun _ => none) "not-json").1 rfl

/-- C7: `verifySignature` is a fail-closed total boolean predicate: it
answers `true` exactly on the signature produced over the same data by the
matching signing key, so on any mismatch — malformed signature bytes, a
different key, or different data — it returns `false` (and, being a total
function into `Bool`, never an exception). -/
theorem claim_c7_verify_fail_closed (signature data : List Nat)
    (publicKey : Nat) :
    verifySignature signature data publicKey = true ↔
      signature = signData data publicKey := by
  cases signature with
  | nil => simp [verifySignature, signData]
  | cons k d => simp [verifySignature, signData]

/-- C8: importing a key under the wrong purpose fails: a key generated
for encryption (OAEP) is rejected by the signing imports, and a key
generated for signing (PSS) is rejected by the encryption imports, each
with the key-format error. -/
theorem claim_c8_wrong_purpose_import (seed : Nat) :
    importSigningPublicKey (exportPublicKey (generateKeyPair seed).publicKey) =
      Except.error CryptoError.keyFormat ∧
    importSigningPrivateKey (exportPrivateKey (generateKeyPair seed).privateKey) =
      Except.error CryptoError.keyFormat ∧
    importPublicKey (exportPublicKey (generateSigningKeyPair seed).publicKey) =
      Except.error CryptoError.keyFormat ∧
    importPrivateKey (exportPrivateKey (generateSigningKeyPair seed).privateKey) =
      Except.error CryptoError.keyFormat := by
  exact ⟨rfl, rfl, rfl, rfl⟩

/-- C9: base64 round trip: decoding the encoding of any byte buffer
returns exactly the original bytes (so every wire field encoded by the
sender decodes to identical bytes on the receiver). -/
theorem claim_c9_base64_round_trip (b : List Nat) (hb : ∀ x ∈ b, x < 256) :
    base64ToArrayBuffer (arrayBufferToBase64 b) = some b :=
  decB_encB b hb

theorem claim_c9_witness :
    (∀ x ∈ [0, 77, 255], x < 256) ∧
    base64ToArrayBuffer (arrayBufferToBase64 [0, 77, 255]) = some [0, 77, 255] :=
  ⟨by decide, claim_c9_base64_round_trip [0, 77, 255] (by decide)⟩

/-- C10 counterexample: the claim says `getKeys` is non-null if and only
if all four entries are present.  In this store all four entries are
present, yet — because the source tests JavaScript truthiness and the
empty string is falsy — `getKeys` returns null. -/
theorem claim_c10_counterexample :
    (KeyStoreState.mk (some "") (some "PRIV") (some "SPUB")
        (some "SPRIV")).encryptionPublicKey.isSome = true ∧
    (KeyStoreState.mk (some "") (some "PRIV") (some "SPUB")
        (some "SPRIV")).encryptionPrivateKey.isSome = true ∧
    (KeyStoreState.mk (some "") (some "PRIV") (some "SPUB")
        (some "SPRIV")).signingPublicKey.isSome = true ∧
    (KeyStoreState.mk (some "") (some "PRIV") (some "SPUB")
        (some "SPRIV")).signingPrivateKey.isSome = true ∧
    getKeys (KeyStoreState.mk (some "") (some "PRIV") (some "SPUB")
        (some "SPRIV")) = none := by
  decide

/-- C10 amended: `getKeys` returns a non-null result if and only if all
four stored entries are present with non-empty values (JavaScript
truthiness), and `hasKeys` is exactly non-nullness of `getKeys`; hence
`hasKeys` implies the complete four-key set is available. -/
theorem claim_c10_amended (st : KeyStoreState) :
    ((getKeys st).isSome = true ↔
      (st.encryptionPublicKey ≠ none ∧ st.encryptionPublicKey ≠ some "" ∧
       st.encryptionPrivateKey ≠ none ∧ st.encryptionPrivateKey ≠ some "" ∧
       st.signingPublicKey ≠ none ∧ st.signingPublicKey ≠ some "" ∧
       st.signingPrivateKey ≠ none ∧ st.signingPrivateKey ≠ some "")) ∧
    hasKeys st = (getKeys st).isSome := by
  obtain ⟨e1, e2, e3, e4⟩ := st
  refine ⟨?_, rfl⟩
  cases e1 <;> cases e2 <;> cases e3 <;> cases e4 <;> simp [getKeys]
